import Mathlib

/-!
Shallow embedding of the `minimal-json-patch` library (the `applyPatch`
version in the repository together with `pointer.js`, `util.js` and the
structural comparator).  JavaScript values are modelled by the `Json`
inductive below; JS objects are insertion-ordered association lists with
unique keys (own data properties only — the prototype chain is out of
scope for parsed JSON documents).  JS numbers are modelled as exact
rationals; the claims under study only involve small integers, far below
the range where double-precision rounding could make the model diverge.
Exceptions are modelled with `Except Err` where `Err` is the message
string carried by `JsonPatchError` (the error class itself is not in the
sources; its `describe` method is modelled from the messages the test
suite asserts: it prefixes `"<context>: "` to the message).
-/

namespace MinimalJsonPatch

/-- JSON value, as the JS engine sees an already-parsed document.
Objects preserve insertion order and have unique keys, like JS objects. -/
inductive Json where
  | null
  | bool (b : Bool)
  | num (q : ℚ)
  | str (s : String)
  | arr (elems : List Json)
  | obj (members : List (String × Json))

/-- Error value: the message string of a `JsonPatchError`. -/
abbrev Err := String

/-- From `util.js`: `isObject` and `isArray` combined; a value passes
`isArray(x) || isObject(x)` exactly when it is an array or an object. -/
def isContainer : Json → Bool
  | .arr _ => true
  | .obj _ => true
  | _ => false

/-- JS `typeof`, restricted to the values of the model (`none` stands for
`undefined`).  `typeof null` is `"object"` in JS. -/
def jsTypeof : Option Json → String
  | none => "undefined"
  | some .null => "object"
  | some (.bool _) => "boolean"
  | some (.num _) => "number"
  | some (.str _) => "string"
  | some (.arr _) => "object"
  | some (.obj _) => "object"

/-- JS `JSON.stringify` applied to a plain string: wraps it in double quotes.
(The JSON escaping of quotes/backslashes inside the string is elided;
no token in this development contains such characters.) -/
def jsStringify (s : String) : String := "\"" ++ s ++ "\""

/-- First-match lookup of a key in an object's member list
(JS property read `element[key]` on a plain object). -/
def objLookup : List (String × Json) → String → Option Json
  | [], _ => none
  | (k', v) :: rest, k => if k' = k then some v else objLookup rest k

/-- JS `{...element}; newElement[key] = v`: if the key is present its value
is replaced in place (insertion order kept), otherwise the new member is
appended at the end. -/
def objSet (members : List (String × Json)) (k : String) (v : Json) :
    List (String × Json) :=
  if (objLookup members k).isSome then
    members.map (fun p => if p.1 = k then (k, v) else p)
  else
    members ++ [(k, v)]

/-- JS `delete newElement[key]`: removes the member with that key. -/
def objDelete : List (String × Json) → String → List (String × Json)
  | [], _ => []
  | (k', v) :: rest, k =>
    if k' = k then objDelete rest k else (k', v) :: objDelete rest k

/-- JS array read `element[i]` with an integer index: `undefined` (here
`none`) for a negative index or one at or past the length. -/
def arrLookup (xs : List Json) (i : Int) : Option Json :=
  if i < 0 then none else xs[i.toNat]?

/-- The clamped start position of `Array.prototype.splice(start, ...)`:
negative starts count from the end (clamped at 0), positive starts are
clamped at the length. -/
def spliceStart (len : Nat) (i : Int) : Nat :=
  if i < 0 then ((len : Int) + i).toNat else min i.toNat len

/-- JS `newElement.splice(index, 0, m)` on a copy: insert `m` before the
clamped index. -/
def spliceInsert (xs : List Json) (i : Int) (m : Json) : List Json :=
  let k := spliceStart xs.length i
  xs.take k ++ m :: xs.drop k

/-- JS `newElement.splice(index, 1, m)` on a copy: replace the element at
the clamped index with `m` (appends when the clamped index is the length). -/
def spliceReplaceOne (xs : List Json) (i : Int) (m : Json) : List Json :=
  let k := spliceStart xs.length i
  xs.take k ++ m :: xs.drop (k + 1)

/-- JS `newElement.splice(index, 1)` on a copy: delete the element at the
clamped index. -/
def spliceDelete (xs : List Json) (i : Int) : List Json :=
  let k := spliceStart xs.length i
  xs.take k ++ xs.drop (k + 1)

/-! ### Pointer token decoding (`pointer.js`) -/

/-- Replace the leftmost occurrence of `pat` in the character list by
`rep`; unchanged when `pat` does not occur (`pat` is nonempty at every
call site). -/
def replaceFirstChars : List Char → List Char → List Char → List Char
  | [], _, _ => []
  | c :: rest, pat, rep =>
    if pat.isPrefixOf (c :: rest) then rep ++ (c :: rest).drop pat.length
    else c :: replaceFirstChars rest pat rep

/-- JS `String.prototype.replace` with a *string* pattern: replaces only
the first occurrence of `pat` by `rep` (this is what `pointer.js` calls —
it does not use a global regular expression). -/
def replaceFirst (s pat rep : String) : String :=
  .mk (replaceFirstChars s.toList pat.toList rep.toList)

/-- The `pointer.js` object-context decoding:
`tokenString.replace('~1', '/').replace('~0', '~')`.  Note each `replace`
rewrites only the first occurrence of its pattern. -/
def decodeObjectToken (tokenString : String) : String :=
  replaceFirst (replaceFirst tokenString "~1" "/") "~0" "~"

/-- Whitespace as trimmed by JS `parseInt` / string-to-number coercion
(the common ASCII cases; exotic Unicode space characters do not occur in
this development). -/
def jsIsWhitespace (c : Char) : Bool :=
  c = ' ' ∨ c = '\t' ∨ c = '\n' ∨ c = '\r' ∨ c = '\x0b' ∨ c = '\x0c'

/-- Numeric value of a list of decimal digits. -/
def digitsToNat (ds : List Char) : Nat :=
  ds.foldl (fun a c => 10 * a + (c.toNat - 48)) 0

/-- JS `parseInt(s, 10)`: skip leading whitespace, read an optional sign,
then the longest prefix of decimal digits (trailing garbage ignored);
`none` models `NaN` (no digits found).  The result is exact — rounding of
huge digit strings to the nearest double is not modelled; the tokens in
this development are far below that range. -/
def jsParseInt (s : String) : Option Int :=
  let cs := s.toList.dropWhile jsIsWhitespace
  let signAndRest : Int × List Char :=
    match cs with
    | '-' :: rest => (-1, rest)
    | '+' :: rest => (1, rest)
    | rest => (1, rest)
  let ds := signAndRest.2.takeWhile Char.isDigit
  if ds.isEmpty then none
  else some (signAndRest.1 * (digitsToNat ds : Int))

/-- Value of one digit in the given radix, or `none`. -/
def digitVal (base : Nat) (c : Char) : Option Nat :=
  let v : Option Nat :=
    if '0' ≤ c ∧ c ≤ '9' then some (c.toNat - 48)
    else if 'a' ≤ c ∧ c ≤ 'f' then some (c.toNat - 87)
    else if 'A' ≤ c ∧ c ≤ 'F' then some (c.toNat - 55)
    else none
  match v with
  | some n => if n < base then some n else none
  | none => none

/-- All-digits parse in a radix (for the `0x`/`0o`/`0b` string-to-number
forms); `none` if empty or any character is not a digit of the radix. -/
def parseRadixDigits (base : Nat) (cs : List Char) : Option Nat :=
  if cs.isEmpty then none
  else
    cs.foldl
      (fun acc c =>
        match acc, digitVal base c with
        | some a, some d => some (base * a + d)
        | _, _ => none)
      (some 0)

/-- Optional exponent part of a decimal literal: empty input means
exponent 0; otherwise `e`/`E`, an optional sign and at least one digit,
consuming the whole input. -/
def parseExponentOpt (cs : List Char) : Option Int :=
  match cs with
  | [] => some 0
  | c :: rest =>
    if c = 'e' ∨ c = 'E' then
      let signAndRest : Int × List Char :=
        match rest with
        | '-' :: r => (-1, r)
        | '+' :: r => (1, r)
        | r => (1, r)
      if signAndRest.2.isEmpty then none
      else if signAndRest.2.all Char.isDigit then
        some (signAndRest.1 * (digitsToNat signAndRest.2 : Int))
      else none
    else none

/-- An exact string-coerced JS number, represented without rounding as
`mant * 10 ^ exp` (the claims only involve values far inside the range
where double-precision arithmetic is exact, so the representation-level
value equals the JS value). -/
structure JsNumber where
  mant : Int
  exp : Int

/-- Unsigned decimal string-number literal: digits, an optional fraction,
an optional exponent; the whole input must be consumed.  (`Infinity` is
mapped to `none`; the only call site runs after `parseInt` succeeded, so
a string starting with a digit is the only reachable input and the
`Infinity` form never arises there.) -/
def parseDecCore (cs : List Char) : Option JsNumber :=
  let intPart := cs.takeWhile Char.isDigit
  let rest1 := cs.drop intPart.length
  match rest1 with
  | '.' :: rest2 =>
    let fracPart := rest2.takeWhile Char.isDigit
    let rest3 := rest2.drop fracPart.length
    if intPart.isEmpty ∧ fracPart.isEmpty then none
    else
      (parseExponentOpt rest3).map (fun e =>
        ⟨(digitsToNat (intPart ++ fracPart) : Int), e - (fracPart.length : Int)⟩)
  | _ =>
    if intPart.isEmpty then none
    else
      (parseExponentOpt rest1).map (fun e => ⟨(digitsToNat intPart : Int), e⟩)

/-- JS string-to-number coercion (`ToNumber` on a string), as triggered by
the loose comparison `tokenNumber != tokenString` in `pointer.js`:
trim whitespace, empty means 0, `0x`/`0o`/`0b` radix forms (unsigned
only), otherwise an optionally signed decimal literal; `none` models
`NaN`. -/
def jsToNumber (s : String) : Option JsNumber :=
  let cs :=
    ((s.toList.dropWhile jsIsWhitespace).reverse.dropWhile jsIsWhitespace).reverse
  match cs with
  | [] => some ⟨0, 0⟩
  | '0' :: c :: rest =>
    if c = 'x' ∨ c = 'X' then (parseRadixDigits 16 rest).map (fun n => ⟨(n : Int), 0⟩)
    else if c = 'b' ∨ c = 'B' then (parseRadixDigits 2 rest).map (fun n => ⟨(n : Int), 0⟩)
    else if c = 'o' ∨ c = 'O' then (parseRadixDigits 8 rest).map (fun n => ⟨(n : Int), 0⟩)
    else parseDecCore cs
  | '-' :: rest => (parseDecCore rest).map (fun q => ⟨-q.mant, q.exp⟩)
  | '+' :: rest => parseDecCore rest
  | _ => parseDecCore cs

/-- Numeric equality between an integer and a string-coerced number
(`mant * 10 ^ exp`), computed with exact integer arithmetic: this is the
`tokenNumber != tokenString` loose comparison of `pointer.js` when both
sides are (non-`NaN`) numbers. -/
def intEqJsNumber (n : Int) (q : JsNumber) : Bool :=
  if 0 ≤ q.exp then n = q.mant * (10 : Int) ^ q.exp.toNat
  else n * (10 : Int) ^ (-q.exp).toNat = q.mant

/-- A decoded pointer token: an object key or an array index, as returned
by `parseTokenString` (object context yields a string, array context an
integer). -/
inductive Token where
  | key (k : String)
  | idx (i : Int)

/-- From `pointer.js`, `parseTokenString(tokenString, context)`:
object context decodes the escapes; array context maps `-` to the length
and otherwise requires `parseInt(tokenString, 10)` to be a number that is
*loosely* equal (`!=` — numeric comparison after coercing the token
string to a number) to the token; any other context is an error. -/
def parseTokenString (tokenString : String) (context : Json) :
    Except Err Token :=
  match context with
  | .obj _ => .ok (.key (decodeObjectToken tokenString))
  | .arr elems =>
    if tokenString = "-" then .ok (.idx (elems.length : Int))
    else
      match jsParseInt tokenString with
      | none =>
        .error ("path token is not a valid array index, was " ++
          jsStringify tokenString)
      | some tokenNumber =>
        match jsToNumber tokenString with
        | none =>
          .error ("path token is not a valid array index, was " ++
            jsStringify tokenString)
        | some q =>
          if intEqJsNumber tokenNumber q then .ok (.idx tokenNumber)
          else
            .error ("path token is not a valid array index, was " ++
              jsStringify tokenString)
  | other =>
    .error ("token context should either be an array or a string, was " ++
      jsTypeof (some other))

/-- JS `element[index]` for a decoded token (mismatched kinds cannot arise:
`parseTokenString` yields a key exactly for objects and an index exactly
for arrays). -/
def jsGetElem : Json → Token → Option Json
  | .obj members, .key k => objLookup members k
  | .arr xs, .idx i => arrLookup xs i
  | _, _ => none

/-- JS `path[0] === '/'`. -/
def firstCharIsSlash (path : String) : Bool :=
  match path.toList with
  | '/' :: _ => true
  | _ => false

/-- JS `String.prototype.split('/')` (single-character separator):
the groups of characters between slashes, with empty groups kept —
`"".split('/')` is `[""]` and `"/".split('/')` is `["", ""]`. -/
def splitOnSlash : List Char → List (List Char)
  | [] => [[]]
  | c :: rest =>
    let r := splitOnSlash rest
    if c = '/' then [] :: r
    else
      match r with
      | [] => [[c]]
      | g :: gs => (c :: g) :: gs

/-- From `pointer.js`, `validatePath` plus the `Pointer` constructor: a path must
be `""` or start with `/`; the token strings are the path split on `/`
with the first (empty) segment discarded.  The mutable read cursor of the
JS class is not modelled: every walk below receives the full token list,
which is exactly what a freshly constructed or rewound pointer provides. -/
def parsePath (path : String) : Except Err (List String) :=
  if path = "" ∨ firstCharIsSlash path then
    .ok (((splitOnSlash path.toList).map (fun g => String.mk g)).drop 1)
  else
    .error "bad path: should be \"\" or start with \"/\""

/-- The method `Pointer.isPrefixTo`: every token of the first list equals the token
of the second list at the same position (a missing position on the right
compares unequal, as `undefined` does against a string in JS). -/
def isPrefixTo : List String → List String → Bool
  | [], _ => true
  | _ :: _, [] => false
  | t :: ts, u :: us => t = u && isPrefixTo ts us

/-! ### The recursive walkers of `index.js` (the `applyPatch` version) -/

/-- Message used when a walk reads a token against a context while the
pointer is exhausted.  (Unreachable from `applyOperation`: a non-empty
path always yields at least one token.  The JS message also reports the
consumed prefix; that detail needs the mutable cursor and is elided.) -/
def exhaustedErr : Err := "pointer is already fully read; valid section was \"\""

/-- Error for walking into a value that is neither an array nor an object
(`none` is JS `undefined` — a missing member). -/
def notContainerErr (d : Option Json) : Err :=
  "pointer leads to an element that is neither an array nor an object but " ++
    jsTypeof d

/-- Function `has(element, pointer)`: does the remaining pointer resolve to a
present value?  May itself fail (token decoding against a scalar context
or an invalid array token throws in JS). -/
def has : Json → List String → Except Err Bool
  | _, [] => .ok true
  | element, t :: rest =>
    match parseTokenString t element with
    | .error e => .error e
    | .ok index =>
      match jsGetElem element index with
      | none => .ok false
      | some child => has child rest

/-- Function `get(element, pointer)`: the value the remaining pointer resolves to,
or the not-found error. -/
def get : Json → List String → Except Err Json
  | element, [] => .ok element
  | element, t :: rest =>
    match parseTokenString t element with
    | .error e => .error e
    | .ok index =>
      match jsGetElem element index with
      | none => .error "pointer does not lead anywhere"
      | some child => get child rest

/-- The final reconstruction step of `add`: bounds-check then
`splice(index, 0, m)` for arrays, key assignment for objects (the
mismatched kinds are unreachable — `parseTokenString` yields an index
exactly for arrays and a key exactly for objects). -/
def reconstructInsert (element : Json) (index : Token) (m : Json) :
    Except Err Json :=
  match element, index with
  | .arr elems, .idx i =>
    if i > (elems.length : Int) then
      .error "pointer points to an index that is out-of-bounds"
    else .ok (.arr (spliceInsert elems i m))
  | .obj members, .key k => .ok (.obj (objSet members k m))
  | _, _ => .error exhaustedErr

/-- The final reconstruction step of `replace` (and of the recursive case
of `remove`): `splice(index, 1, m)` for arrays, key assignment for
objects. -/
def reconstructReplace (element : Json) (index : Token) (m : Json) :
    Except Err Json :=
  match element, index with
  | .arr elems, .idx i => .ok (.arr (spliceReplaceOne elems i m))
  | .obj members, .key k => .ok (.obj (objSet members k m))
  | _, _ => .error exhaustedErr

/-- The child read of a non-final walk step: `element[index]` must be an
array or an object, as in the `!isArray(...) && !isObject(...)` guard. -/
def childContainer (element : Json) (index : Token) : Except Err Json :=
  match jsGetElem element index with
  | some d =>
    if isContainer d then .ok d else .error (notContainerErr (some d))
  | none => .error (notContainerErr none)

/-- Function `add(element, pointer, value)`.  Note the faithful quirk: the
reconstruction uses `splice(index, 0, modifiedMember)` — an *insertion* —
for arrays at every level of the walk, not only at the final token. -/
def add : Json → List String → Json → Except Err Json
  | _, [], _ => .error exhaustedErr
  | element, t :: rest, value =>
    match parseTokenString t element with
    | .error e => .error e
    | .ok index =>
      match rest with
      | [] => reconstructInsert element index value
      | _ :: _ =>
        match childContainer element index with
        | .error e => .error e
        | .ok d =>
          match add d rest value with
          | .error e => .error e
          | .ok modifiedMember => reconstructInsert element index modifiedMember

/-- Function `replace(element, pointer, value)`: like `add` but reconstructing
arrays with `splice(index, 1, modifiedMember)` (replace one element). -/
def replace : Json → List String → Json → Except Err Json
  | _, [], _ => .error exhaustedErr
  | element, t :: rest, value =>
    match parseTokenString t element with
    | .error e => .error e
    | .ok index =>
      match rest with
      | [] => reconstructReplace element index value
      | _ :: _ =>
        match childContainer element index with
        | .error e => .error e
        | .ok d =>
          match replace d rest value with
          | .error e => .error e
          | .ok modifiedMember => reconstructReplace element index modifiedMember

/-- Function `remove(element, pointer)`: at the final token the target must be
present and is deleted; otherwise the walk recurses and reconstructs the
current level with the modified child. -/
def remove : Json → List String → Except Err Json
  | _, [] => .error exhaustedErr
  | element, t :: rest =>
    match parseTokenString t element with
    | .error e => .error e
    | .ok index =>
      match rest with
      | [] =>
        match jsGetElem element index with
        | none => .error "pointer does not lead anywhere"
        | some _ =>
          match element, index with
          | .arr elems, .idx i => .ok (.arr (spliceDelete elems i))
          | .obj members, .key k => .ok (.obj (objDelete members k))
          | _, _ => .error exhaustedErr
      | _ :: _ =>
        match childContainer element index with
        | .error e => .error e
        | .ok d =>
          match remove d rest with
          | .error e => .error e
          | .ok modifiedMember => reconstructReplace element index modifiedMember

/-! ### Document well-formedness and path shape

JS objects cannot carry duplicate keys; `wfB` states that invariant for
every object node of a document.  `middleObjects` walks a token list and
checks that every context visited *before the final token* is an object —
the shape under which the persistent reconstruction of `add` and `remove`
mirror each other (see the `add` doc comment for the array-level quirk). -/

/-- Keys of an object member list are pairwise distinct. -/
def nodupKeysB : List (String × Json) → Bool
  | [] => true
  | (k, _) :: ms => (objLookup ms k).isNone && nodupKeysB ms

mutual

/-- Every object node of the document has pairwise distinct keys (always
true of a document built from JS values). -/
def wfB : Json → Bool
  | .null => true
  | .bool _ => true
  | .num _ => true
  | .str _ => true
  | .arr xs => wfListB xs
  | .obj ms => nodupKeysB ms && wfMembersB ms

/-- Predicate `wfB` on every element of an array. -/
def wfListB : List Json → Bool
  | [] => true
  | x :: xs => wfB x && wfListB xs

/-- Predicate `wfB` on every member value of an object. -/
def wfMembersB : List (String × Json) → Bool
  | [] => true
  | (_, v) :: ms => wfB v && wfMembersB ms

end

/-- Every context read against a *non-final* token of the walk is an
object (vacuously true when the walk leaves the present part of the
document, where `add` fails anyway). -/
def middleObjects : Json → List String → Bool
  | _, [] => true
  | _, [_] => true
  | .obj ms, t :: rest =>
    match objLookup ms (decodeObjectToken t) with
    | some d => middleObjects d rest
    | none => true
  | _, _ :: _ :: _ => false

/-! ### Structural comparator (`compare.js`), used by the `test` op -/

/-- JS strict equality on the primitive values reachable from
`comparePrimitive` (the item is neither an object nor an array there; a
container on the right compares unequal to any primitive). -/
def jsStrictEq : Json → Json → Bool
  | .null, .null => true
  | .bool a, .bool b => a = b
  | .num a, .num b => a = b
  | .str a, .str b => a = b
  | _, _ => false

mutual

/-- Function `compare(item, value)`: deep equality driven by the *item*'s kind.
Objects compare by key count, mutual key membership and then pairwise
values (iterating the value's members); arrays by length then pairwise;
everything else by JS strict equality.  The result is `.ok ()` or the
first mismatch error. -/
def compare : Json → Json → Except Err Unit
  | .obj members, value =>
    match value with
    | .obj vmembers =>
      if members.length ≠ vmembers.length then
        .error "test target has a different number of keys than the compared value"
      else
        match vmembers.find? (fun p => (objLookup members p.1).isNone) with
        | some p => .error ("test target lacks a key: " ++ p.1)
        | none =>
          match members.find? (fun p => (objLookup vmembers p.1).isNone) with
          | some p => .error ("test target has an extra key: " ++ p.1)
          | none => compareMembers members vmembers
    | _ => .error "test target is an object but the value is not"
  | .arr xs, value =>
    match value with
    | .arr vs =>
      if xs.length ≠ vs.length then
        .error "test target and value are arrays of differing length"
      else compareElems xs vs
    | _ => .error "test target is an array but the value is not"
  | item, value =>
    if jsStrictEq item value then .ok ()
    else .error "primitive is not equal to the compared value"
termination_by _item value => sizeOf value

/-- The `for (const valueKey in value) compare(object[valueKey],
value[valueKey])` loop of `compareObject` (the key was already checked to
be present on both sides). -/
def compareMembers (object : List (String × Json)) :
    List (String × Json) → Except Err Unit
  | [] => .ok ()
  | (k, vv) :: rest =>
    match objLookup object k with
    | some ov =>
      match compare ov vv with
      | .error e => .error e
      | .ok _ => compareMembers object rest
    | none => .error "test target lacks a key (unreachable: checked above)"
termination_by vs => sizeOf vs

/-- The index loop of `compareArray` (lengths already checked equal). -/
def compareElems : List Json → List Json → Except Err Unit
  | [], _ => .ok ()
  | _ :: _, [] => .error "test target and value are arrays of differing length"
  | x :: xs, v :: vs =>
    match compare x v with
    | .error e => .error e
    | .ok _ => compareElems xs vs
termination_by _xs vs => sizeOf vs

end

/-! ### Operation dispatch (`applyOperation`, `applyPatch`) -/

/-- A patch operation as the dispatcher reads it: the `op` name, the
`path` string, and the optional `from` and `value` members (`none` models
the member being absent; `'value' in operation` is `value.isSome`).
Claims never exercise a missing or non-string `path`, so `path` is a
plain string here. -/
structure Operation where
  op : String
  path : String := ""
  fromPath : Option String := none
  value : Option Json := none

/-- Method `JsonPatchError.describe`: prefix the context to the message (modelled
from the messages the test suite asserts, e.g. `"add failed: missing
value"`). -/
def describe (context : String) (e : Err) : Err := context ++ ": " ++ e

/-- The per-case `try/catch` of `applyOperation`: a thrown
`JsonPatchError` is re-labeled with the operation context. -/
def wrapErr (context : String) : Except Err Json → Except Err Json
  | .error e => .error (describe context e)
  | .ok v => .ok v

/-- Function `applyOperation(document, operation)`: dispatch on the op name with
the same checks, in the same order, as the source. -/
def applyOperation (document : Json) (operation : Operation) :
    Except Err Json :=
  match operation.op with
  | "add" =>
    wrapErr "add failed"
      (match operation.value with
       | none => .error "missing value"
       | some v =>
         if operation.path = "" then .ok v
         else
           match parsePath operation.path with
           | .error e => .error e
           | .ok ts => add document ts v)
  | "copy" =>
    wrapErr "copy failed"
      (match operation.fromPath with
       | none => .error "missing from"
       | some f =>
         match parsePath f with
         | .error e => .error e
         | .ok fts =>
           match get document fts with
           | .error e => .error e
           | .ok value =>
             if operation.path = "" then .ok value
             else
               match parsePath operation.path with
               | .error e => .error e
               | .ok ts => add document ts value)
  | "move" =>
    wrapErr "move failed"
      (match operation.fromPath with
       | none => .error "missing from"
       | some f =>
         if f = operation.path then .ok document
         else
           match parsePath f with
           | .error e => .error e
           | .ok fts =>
             match parsePath operation.path with
             | .error e => .error e
             | .ok ts =>
               if isPrefixTo fts ts then
                 .error "from pointer cannot be a prefix of path pointer"
               else
                 match get document fts with
                 | .error e => .error e
                 | .ok value =>
                   if operation.path = "" then .ok value
                   else
                     match replace document ts value with
                     | .error e => .error e
                     | .ok doc1 =>
                       if isPrefixTo ts fts then .ok doc1
                       else remove doc1 fts)
  | "remove" =>
    wrapErr "remove failed"
      (if operation.path = "" then .ok .null
       else
         match parsePath operation.path with
         | .error e => .error e
         | .ok ts => remove document ts)
  | "replace" =>
    wrapErr "replace failed"
      (match operation.value with
       | none => .error "missing value"
       | some v =>
         if operation.path = "" then .ok v
         else
           match parsePath operation.path with
           | .error e => .error e
           | .ok ts =>
             match has document ts with
             | .error e => .error e
             | .ok false => .error "pointer points to a nonexistent location"
             | .ok true => replace document ts v)
  | "test" =>
    wrapErr "test failed"
      (match operation.value with
       | none => .error "missing value"
       | some v =>
         match parsePath operation.path with
         | .error e => .error e
         | .ok ts =>
           match get document ts with
           | .error e => .error e
           | .ok target =>
             match compare v target with
             | .error e => .error e
             | .ok _ => .ok document)
  | other =>
    .error ("illegal op: should be add/copy/move/remove/replace/test, was " ++
      jsStringify other)

/-- Function `applyPatch(document, patch)`: left fold of `applyOperation` over the
operations, stopping at (and propagating) the first error.  The patch is
a Lean list, so the `Array.isArray` guard of the source is satisfied by
construction. -/
def applyPatch (document : Json) (patch : List Operation) :
    Except Err Json :=
  match patch with
  | [] => .ok document
  | operation :: rest =>
    match applyOperation document operation with
    | .error e => .error e
    | .ok doc1 => applyPatch doc1 rest

/-! ### Convenience constructors for the operations used in the claims -/

/-- An `add` operation object. -/
def addOp (path : String) (value : Json) : Operation :=
  { op := "add", path := path, value := some value }

/-- A `remove` operation object. -/
def removeOp (path : String) : Operation :=
  { op := "remove", path := path }

/-- A `move` operation object. -/
def moveOp (f path : String) : Operation :=
  { op := "move", path := path, fromPath := some f }

/-! ## Supporting lemmas -/

theorem objLookup_append_self (ms : List (String × Json)) (k : String)
    (v : Json) (h : objLookup ms k = none) :
    objLookup (ms ++ [(k, v)]) k = some v := by
  induction ms with
  | nil => simp [objLookup]
  | cons p rest ih =>
    obtain ⟨k', v'⟩ := p
    by_cases hk : k' = k
    · rw [objLookup, if_pos hk] at h
      cases h
    · rw [objLookup, if_neg hk] at h
      show objLookup ((k', v') :: (rest ++ [(k, v)])) k = some v
      rw [objLookup, if_neg hk]
      exact ih h

theorem objDelete_append_self (ms : List (String × Json)) (k : String)
    (v : Json) (h : objLookup ms k = none) :
    objDelete (ms ++ [(k, v)]) k = ms := by
  induction ms with
  | nil => simp [objDelete]
  | cons p rest ih =>
    obtain ⟨k', v'⟩ := p
    by_cases hk : k' = k
    · rw [objLookup, if_pos hk] at h
      cases h
    · rw [objLookup, if_neg hk] at h
      show objDelete ((k', v') :: (rest ++ [(k, v)])) k = (k', v') :: rest
      rw [objDelete, if_neg hk, ih h]

theorem mapSet_noop (ms : List (String × Json)) (k : String) (v : Json)
    (h : objLookup ms k = none) :
    ms.map (fun p => if p.1 = k then (k, v) else p) = ms := by
  induction ms with
  | nil => rfl
  | cons p rest ih =>
    obtain ⟨k', v'⟩ := p
    by_cases hk : k' = k
    · rw [objLookup, if_pos hk] at h
      cases h
    · rw [objLookup, if_neg hk] at h
      simp only [List.map_cons, if_neg hk, ih h]

theorem objLookup_mapSet (ms : List (String × Json)) (k : String)
    (d v : Json) (h : objLookup ms k = some d) :
    objLookup (ms.map (fun p => if p.1 = k then (k, v) else p)) k = some v := by
  induction ms with
  | nil => cases h
  | cons p rest ih =>
    obtain ⟨k', v'⟩ := p
    by_cases hk : k' = k
    · subst hk
      simp only [List.map_cons, eq_self_iff_true, if_true]
      rw [objLookup, if_pos rfl]
    · rw [objLookup, if_neg hk] at h
      simp only [List.map_cons, if_neg hk]
      rw [objLookup, if_neg hk]
      exact ih h

theorem objLookup_objSet (ms : List (String × Json)) (k : String)
    (d v : Json) (h : objLookup ms k = some d) :
    objLookup (objSet ms k v) k = some v := by
  rw [objSet, if_pos (by simp [h])]
  exact objLookup_mapSet ms k d v h

theorem mapSet_mapSet (ms : List (String × Json)) (k : String) (m d : Json) :
    (ms.map (fun p => if p.1 = k then (k, m) else p)).map
        (fun p => if p.1 = k then (k, d) else p) =
      ms.map (fun p => if p.1 = k then (k, d) else p) := by
  induction ms with
  | nil => rfl
  | cons p rest ih =>
    obtain ⟨k', v'⟩ := p
    by_cases hk : k' = k
    · simp [hk, ih]
    · simp [hk, ih]

theorem mapSet_self (ms : List (String × Json)) (k : String) (d : Json)
    (hnodup : nodupKeysB ms = true) (h : objLookup ms k = some d) :
    ms.map (fun p => if p.1 = k then (k, d) else p) = ms := by
  induction ms with
  | nil => cases h
  | cons p rest ih =>
    obtain ⟨k', v'⟩ := p
    rw [nodupKeysB, Bool.and_eq_true] at hnodup
    obtain ⟨hn1, hn2⟩ := hnodup
    rw [Option.isNone_iff_eq_none] at hn1
    by_cases hk : k' = k
    · rw [objLookup, if_pos hk] at h
      cases h
      subst hk
      simp [mapSet_noop rest k' d hn1]
    · rw [objLookup, if_neg hk] at h
      simp only [List.map_cons, if_neg hk, ih hn2 h]

theorem objSet_objSet_cancel (ms : List (String × Json)) (k : String)
    (d m : Json) (hnodup : nodupKeysB ms = true)
    (h : objLookup ms k = some d) :
    objSet (objSet ms k m) k d = ms := by
  have h1 : objSet ms k m = ms.map (fun p => if p.1 = k then (k, m) else p) := by
    rw [objSet, if_pos (by simp [h])]
  have h2 : objLookup (objSet ms k m) k = some m := objLookup_objSet ms k d m h
  rw [objSet, if_pos (by simp [h2]), h1, mapSet_mapSet, mapSet_self ms k d hnodup h]

theorem wf_obj_nodup (ms : List (String × Json)) (h : wfB (.obj ms) = true) :
    nodupKeysB ms = true := by
  rw [wfB, Bool.and_eq_true] at h
  exact h.1

theorem wfMembers_lookup (ms : List (String × Json)) (k : String) (d : Json)
    (hwf : wfMembersB ms = true) (h : objLookup ms k = some d) :
    wfB d = true := by
  induction ms with
  | nil => cases h
  | cons p rest ih =>
    obtain ⟨k', v'⟩ := p
    rw [wfMembersB, Bool.and_eq_true] at hwf
    by_cases hk : k' = k
    · rw [objLookup, if_pos hk] at h
      cases h
      exact hwf.1
    · rw [objLookup, if_neg hk] at h
      exact ih hwf.2 h

theorem wf_obj_member (ms : List (String × Json)) (k : String) (d : Json)
    (hwf : wfB (.obj ms) = true) (h : objLookup ms k = some d) :
    wfB d = true := by
  rw [wfB, Bool.and_eq_true] at hwf
  exact wfMembers_lookup ms k d hwf.2 h

theorem spliceInsert_length (xs : List Json) (v : Json) :
    spliceInsert xs (xs.length : Int) v = xs ++ [v] := by
  have h0 : ¬ ((xs.length : Int) < 0) := by omega
  simp [spliceInsert, spliceStart, h0]

theorem arrLookup_append_length (xs : List Json) (v : Json) :
    arrLookup (xs ++ [v]) (xs.length : Int) = some v := by
  have h0 : ¬ ((xs.length : Int) < 0) := by omega
  simp [arrLookup, h0, List.getElem?_concat_length]

theorem arrLookup_length_none (xs : List Json) :
    arrLookup xs (xs.length : Int) = none := by
  have h0 : ¬ ((xs.length : Int) < 0) := by omega
  simp [arrLookup, h0, List.getElem?_eq_none]

theorem spliceDelete_append_length (xs : List Json) (v : Json) :
    spliceDelete (xs ++ [v]) (xs.length : Int) = xs := by
  have h0 : ¬ ((xs.length : Int) < 0) := by omega
  have h1 : (xs ++ [v]).drop (xs.length + 1) = [] := by
    apply List.drop_eq_nil_of_le
    simp
  simp [spliceDelete, spliceStart, h0, List.take_left, h1,
    Nat.min_eq_left (by simp : xs.length ≤ (xs ++ [v]).length)]

theorem arrLookup_none_le (xs : List Json) (i : Int) (h0 : 0 ≤ i)
    (h : arrLookup xs i = none) : (xs.length : Int) ≤ i := by
  rw [arrLookup, if_neg (by omega)] at h
  have := List.getElem?_eq_none_iff.mp h
  omega

theorem parse_arr_stable (t : String) (xs ys : List Json) (hdash : t ≠ "-") :
    parseTokenString t (.arr xs) = parseTokenString t (.arr ys) := by
  simp [parseTokenString, hdash]

theorem parse_arr_idx (t : String) (xs : List Json) (tok : Token)
    (h : parseTokenString t (.arr xs) = .ok tok) : ∃ n : Int, tok = .idx n := by
  by_cases hdash : t = "-"
  · subst hdash
    simp only [parseTokenString, if_pos rfl] at h
    cases h
    exact ⟨_, rfl⟩
  · cases hpi : jsParseInt t with
    | none => simp [parseTokenString, hdash, hpi] at h
    | some m =>
      cases htn : jsToNumber t with
      | none => simp [parseTokenString, hdash, hpi, htn] at h
      | some q =>
        by_cases heq : intEqJsNumber m q = true
        · simp only [parseTokenString, if_neg hdash, hpi, htn] at h
          rw [if_pos heq] at h
          cases h
          exact ⟨m, rfl⟩
        · simp only [parseTokenString, if_neg hdash, hpi, htn] at h
          rw [if_neg heq] at h
          cases h

theorem reconstructInsert_container (E : Json) (tok : Token) (m E' : Json)
    (h : reconstructInsert E tok m = .ok E') : isContainer E' = true := by
  cases E with
  | arr xs =>
    cases tok with
    | idx i =>
      rw [reconstructInsert] at h
      by_cases hb : i > (xs.length : Int)
      · rw [if_pos hb] at h; cases h
      · rw [if_neg hb] at h; cases h; rfl
    | key k => cases h
  | obj ms =>
    cases tok with
    | idx i => cases h
    | key k => cases h; rfl
  | null => cases tok <;> cases h
  | bool b => cases tok <;> cases h
  | num q => cases tok <;> cases h
  | str s => cases tok <;> cases h

theorem add_container (E : Json) (ts : List String) (v m : Json)
    (h : add E ts v = .ok m) : isContainer m = true := by
  cases ts with
  | nil => cases h
  | cons t rest =>
    rw [add] at h
    cases hp : parseTokenString t E with
    | error e => simp only [hp] at h; cases h
    | ok index =>
      simp only [hp] at h
      cases rest with
      | nil => exact reconstructInsert_container E index v m h
      | cons r rs =>
        cases hc : childContainer E index with
        | error e => simp only [hc] at h; cases h
        | ok d =>
          simp only [hc] at h
          cases ha : add d (r :: rs) v with
          | error e => simp only [ha] at h; cases h
          | ok m1 =>
            simp only [ha] at h
            exact reconstructInsert_container E index m1 m h

/-- Round-trip core: if the pointer does not resolve in `E`, the add
succeeds producing `E'`, the pointer resolves in `E'`, and every
non-final context on the walk is an object, then removing at the same
pointer restores `E` exactly. -/
theorem addRemoveAux (ts : List String) : ∀ (E E' v : Json),
    wfB E = true → middleObjects E ts = true → has E ts = .ok false →
    add E ts v = .ok E' → has E' ts = .ok true →
    remove E' ts = .ok E := by
  induction ts with
  | nil =>
    intro E E' v _ _ hhas _ _
    simp [has] at hhas
  | cons t rest ih =>
    intro E E' v hwf hmid hhas hadd hhas2
    cases E with
    | null => rw [has] at hhas; simp only [parseTokenString] at hhas; cases hhas
    | bool b => rw [has] at hhas; simp only [parseTokenString] at hhas; cases hhas
    | num q => rw [has] at hhas; simp only [parseTokenString] at hhas; cases hhas
    | str s => rw [has] at hhas; simp only [parseTokenString] at hhas; cases hhas
    | obj ms =>
      rw [has] at hhas
      rw [add] at hadd
      simp only [parseTokenString, jsGetElem] at hhas hadd
      cases hlk : objLookup ms (decodeObjectToken t) with
      | none =>
        cases rest with
        | nil =>
          simp only [reconstructInsert] at hadd
          cases hadd
          have hset : objSet ms (decodeObjectToken t) v =
              ms ++ [(decodeObjectToken t, v)] := by
            rw [objSet, if_neg (by simp [hlk])]
          rw [hset, remove]
          simp only [parseTokenString, jsGetElem,
            objLookup_append_self ms (decodeObjectToken t) v hlk,
            objDelete_append_self ms (decodeObjectToken t) v hlk]
        | cons r rs =>
          simp only [childContainer, jsGetElem, hlk] at hadd
          cases hadd
      | some d =>
        simp only [hlk] at hhas
        cases rest with
        | nil => simp [has] at hhas
        | cons r rs =>
          simp only [childContainer, jsGetElem, hlk] at hadd
          cases hcont : isContainer d with
          | false => rw [hcont] at hadd; simp at hadd
          | true =>
            rw [hcont] at hadd
            simp only [if_true] at hadd
            cases haddrec : add d (r :: rs) v with
            | error e => simp only [haddrec] at hadd; cases hadd
            | ok m =>
              simp only [haddrec, reconstructInsert] at hadd
              cases hadd
              simp only [middleObjects, hlk] at hmid
              rw [has] at hhas2
              simp only [parseTokenString, jsGetElem,
                objLookup_objSet ms (decodeObjectToken t) d m hlk] at hhas2
              have hnodup : nodupKeysB ms = true := wf_obj_nodup ms hwf
              have hwfd : wfB d = true :=
                wf_obj_member ms (decodeObjectToken t) d hwf hlk
              have ihm : remove m (r :: rs) = .ok d :=
                ih d m v hwfd hmid hhas haddrec hhas2
              have hcontm : isContainer m = true :=
                add_container d (r :: rs) v m haddrec
              rw [remove]
              simp only [parseTokenString, childContainer, jsGetElem,
                objLookup_objSet ms (decodeObjectToken t) d m hlk, hcontm,
                if_true, ihm, reconstructReplace,
                objSet_objSet_cancel ms (decodeObjectToken t) d m hnodup hlk]
    | arr xs =>
      cases rest with
      | cons r rs => simp [middleObjects] at hmid
      | nil =>
        cases hp : parseTokenString t (.arr xs) with
        | error e => rw [has] at hhas; simp only [hp] at hhas; cases hhas
        | ok tok =>
          obtain ⟨n, rfl⟩ := parse_arr_idx t xs tok hp
          rw [has] at hhas
          simp only [hp, jsGetElem] at hhas
          rw [add] at hadd
          simp only [hp, reconstructInsert] at hadd
          by_cases hb : n > (xs.length : Int)
          · rw [if_pos hb] at hadd; cases hadd
          · rw [if_neg hb] at hadd
            cases hadd
            by_cases hdash : t = "-"
            · subst hdash
              rw [has] at hhas2
              simp [parseTokenString, jsGetElem, arrLookup_length_none]
                at hhas2
            · have hp2 : ∀ ys, parseTokenString t (.arr ys) = .ok (.idx n) :=
                fun ys => (parse_arr_stable t ys xs hdash).trans hp
              cases hlq : arrLookup xs n with
              | some child =>
                simp only [hlq] at hhas
                simp [has] at hhas
              | none =>
                rw [has] at hhas2
                rw [hp2 (spliceInsert xs n v)] at hhas2
                simp only [jsGetElem] at hhas2
                cases hlq2 : arrLookup (spliceInsert xs n v) n with
                | none => simp only [hlq2] at hhas2; cases hhas2
                | some w =>
                  have hn0 : 0 ≤ n := by
                    by_contra hneg
                    rw [arrLookup, if_pos (by omega)] at hlq2
                    cases hlq2
                  have hnlen : (xs.length : Int) ≤ n :=
                    arrLookup_none_le xs n hn0 hlq
                  have hn : n = (xs.length : Int) := by omega
                  subst hn
                  rw [spliceInsert_length]
                  rw [remove]
                  rw [hp2 (xs ++ [v])]
                  simp only [jsGetElem, arrLookup_append_length,
                    spliceDelete_append_length]

/-! ## Claim theorems -/

/-- C9.  Empty-patch identity: for every document `D`, `applyPatch D []`
succeeds and returns `D` itself unchanged. -/
theorem c9_empty_patch (D : Json) : applyPatch D [] = .ok D := rfl

/-- C8.  Remove at the document root: for every document `D`,
`applyPatch D [{op: remove, path: ""}]` succeeds and returns the
documented null sentinel, regardless of `D`. -/
theorem c8_remove_root (D : Json) : applyPatch D [removeOp ""] = .ok .null := rfl

/-- C2 (code bug).  Move is *not* equivalent to remove-then-add: on
`["a","b","c"]`, moving from `/0` to `/1` yields `["a","c"]` (the
implementation replaces at `path` first and removes `from` afterwards),
while the remove-then-add sequence the spec and RFC 6902 describe yields
`["b","a","c"]`.  `/0` is not a prefix of `/1`, so the claimed
equivalence applies and fails. -/
theorem c2_move_nonequivalence :
    applyPatch (.arr [.str "a", .str "b", .str "c"]) [moveOp "/0" "/1"] =
      .ok (.arr [.str "a", .str "c"]) ∧
    get (.arr [.str "a", .str "b", .str "c"]) ["0"] = .ok (.str "a") ∧
    applyPatch (.arr [.str "a", .str "b", .str "c"])
        [removeOp "/0", addOp "/1" (.str "a")] =
      .ok (.arr [.str "b", .str "a", .str "c"]) ∧
    isPrefixTo ["0"] ["1"] = false ∧
    Json.arr [.str "a", .str "c"] ≠ .arr [.str "b", .str "a", .str "c"] :=
  ⟨rfl, rfl, rfl, rfl, by simp⟩

/-- C3 (counterexample).  The token `"01"` does not re-render to itself
(`parseInt` gives `1`, which renders as `"1"`), yet resolution against an
array accepts it: removing at `/01` from `[10, 20]` succeeds and deletes
index 1. -/
theorem c3_counterexample :
    parseTokenString "01" (.arr [.num 10, .num 20]) = .ok (.idx 1) ∧
    applyPatch (.arr [.num 10, .num 20]) [removeOp "/01"] =
      .ok (.arr [.num 10]) ∧
    "01" ≠ "1" :=
  ⟨rfl, rfl, by decide⟩

/-- C4 (code bug).  Token unescaping replaces only the *first* occurrence
of each escape (`String.prototype.replace` with a string pattern):
`"~1~1"` decodes to `"/~1"` rather than `"//"`, so the pointer
`"/~1~1"` fails to address the key `"//"`.  The single-escape examples of
the claim do hold. -/
theorem c4_unescape_first_only :
    decodeObjectToken "~0" = "~" ∧
    decodeObjectToken "~1" = "/" ∧
    decodeObjectToken "~0~1" = "~/" ∧
    decodeObjectToken "~1~1" = "/~1" ∧
    "/~1" ≠ "//" ∧
    applyPatch (.obj [("//", .num 1)]) [removeOp "/~1~1"] =
      .error "remove failed: pointer does not lead anywhere" :=
  ⟨rfl, rfl, rfl, rfl, by decide, rfl⟩

/-- C5 (counterexample).  The append pointer (path `"/"` followed by
`"-"`, whose single token is the dash) does not resolve to an existing
location of `[]`, the add there succeeds (appending), yet the subsequent
remove at the same pointer fails — the add/remove round trip does not
hold for every non-resolving pointer. -/
theorem c5_counterexample :
    parsePath "/-" = .ok ["-"] ∧
    has (.arr []) ["-"] = .ok false ∧
    applyPatch (.arr []) [addOp "/-" (.str "a")] = .ok (.arr [.str "a"]) ∧
    applyPatch (.arr [.str "a"]) [removeOp "/-"] =
      .error "remove failed: pointer does not lead anywhere" :=
  ⟨rfl, rfl, rfl, rfl⟩

/-- C6 (counterexample).  A move whose `from` equals its `path` is a
no-op that never checks existence: with document `{}`, the pointer `/a`
resolves to nothing, yet `move from:/a path:/a` succeeds. -/
theorem c6_counterexample :
    get (.obj []) ["a"] = .error "pointer does not lead anywhere" ∧
    parsePath "/a" = .ok ["a"] ∧
    applyPatch (.obj []) [moveOp "/a" "/a"] = .ok (.obj []) :=
  ⟨rfl, rfl, rfl⟩

/-- C10.  The pointer string `"/"` parses to the single empty-string
token, which addresses the object member with key `""`: reading it yields
that member's value and removing at `"/"` deletes exactly that member. -/
theorem c10_slash_empty_key (ms : List (String × Json)) (v : Json)
    (h : objLookup ms "" = some v) :
    parsePath "/" = .ok [""] ∧
    get (.obj ms) [""] = .ok v ∧
    applyPatch (.obj ms) [removeOp "/"] = .ok (.obj (objDelete ms "")) := by
  refine ⟨rfl, ?_, ?_⟩
  · simp [get, parseTokenString, decodeObjectToken, replaceFirst,
      replaceFirstChars, jsGetElem, h]
  · simp [applyPatch, applyOperation, removeOp, wrapErr, parsePath,
      firstCharIsSlash, splitOnSlash, remove, parseTokenString,
      decodeObjectToken, replaceFirst, replaceFirstChars, jsGetElem, h]

/-- Witness for `c10_slash_empty_key` at the document
`{"": 7, "a": 2}`. -/
theorem c10_slash_empty_key_witness :
    applyPatch (.obj [("", .num 7), ("a", .num 2)]) [removeOp "/"] =
      .ok (.obj [("a", .num 2)]) :=
  (c10_slash_empty_key [("", .num 7), ("a", .num 2)] (.num 7) rfl).2.2

/-- C1.  Atomicity of patch application: the patch fold propagates the
first failing operation's error, so a patch with a failing operation
yields that error and never a partially-updated document.  The embedded
operations are pure functions that rebuild containers by path-copying —
exactly as the JS code copies with spread/`splice` and never mutates its
input — so the caller's original document is unchanged by construction
whenever the call fails. -/
theorem c1_atomicity (D D' : Json) (ops1 : List Operation) (op : Operation)
    (rest : List Operation) (e : Err)
    (h1 : applyPatch D ops1 = .ok D')
    (h2 : applyOperation D' op = .error e) :
    applyPatch D (ops1 ++ op :: rest) = .error e := by
  induction ops1 generalizing D with
  | nil =>
    simp only [applyPatch] at h1
    cases h1
    simp only [List.nil_append, applyPatch, h2]
  | cons o os ih =>
    simp only [List.cons_append, applyPatch] at h1 ⊢
    cases ho : applyOperation D o with
    | error e1 => rw [ho] at h1; cases h1
    | ok d1 =>
      rw [ho] at h1
      exact ih d1 h1

/-- Witness for `c1_atomicity`: a two-operation patch whose second
operation fails makes the whole call fail with that error. -/
theorem c1_atomicity_witness :
    applyPatch (.obj [("a", .num 1)])
        ([addOp "/b" (.num 2)] ++ removeOp "/zzz" :: [removeOp "/a"]) =
      .error "remove failed: pointer does not lead anywhere" :=
  c1_atomicity (.obj [("a", .num 1)]) (.obj [("a", .num 1), ("b", .num 2)])
    [addOp "/b" (.num 2)] (removeOp "/zzz") [removeOp "/a"] _ rfl rfl

/-- C6 (amended).  Move source must exist *unless the move is the
degenerate `from = path` no-op*: for every document and move operation
with `from ≠ path` whose `from` pointer does not resolve to an existing
value (pointer construction or the `get` walk fails), the call fails
with a `JsonPatchError` — the plain missing-target walk gives the
not-found error, while a prefix violation or a non-container on the walk
gives its own error kind. -/
theorem c6_move_source_missing (document : Json) (f path : String) (er : Err)
    (hne : f ≠ path)
    (hfail : (parsePath f >>= fun ts => get document ts) = .error er) :
    ∃ e, applyPatch document [moveOp f path] = .error e := by
  cases hf : parsePath f with
  | error e1 =>
    refine ⟨describe "move failed" e1, ?_⟩
    simp [applyPatch, applyOperation, moveOp, wrapErr, hne, hf]
  | ok fts =>
    rw [hf] at hfail
    simp only [Bind.bind, Except.bind] at hfail
    cases hp : parsePath path with
    | error e2 =>
      refine ⟨describe "move failed" e2, ?_⟩
      simp [applyPatch, applyOperation, moveOp, wrapErr, hne, hf, hp]
    | ok ts =>
      by_cases hpre : isPrefixTo fts ts = true
      · refine
          ⟨describe "move failed"
            "from pointer cannot be a prefix of path pointer", ?_⟩
        simp [applyPatch, applyOperation, moveOp, wrapErr, hne, hf, hp, hpre]
      · refine ⟨describe "move failed" er, ?_⟩
        simp [applyPatch, applyOperation, moveOp, wrapErr, hne, hf, hp, hpre,
          hfail]

/-- Witness for `c6_move_source_missing`: moving from the missing `/a`
to `/b` in `{}` fails. -/
theorem c6_move_source_missing_witness :
    ∃ e, applyPatch (.obj []) [moveOp "/a" "/b"] = .error e :=
  c6_move_source_missing (.obj []) "/a" "/b"
    "pointer does not lead anywhere" (by decide) rfl

/-- C7.  Add into an array: the dash token appends at the end; a token
resolving to a (nonnegative) index `i ≤ length` inserts before index `i`,
shifting later elements right; an index greater than the length fails
with the out-of-bounds error; and concretely
`applyPatch [1,2] [{op: add, path: "/4", value: "d"}]` fails with it. -/
theorem c7_add_into_array :
    (∀ (xs : List Json) (v : Json),
      parseTokenString "-" (.arr xs) = .ok (.idx (xs.length : Int)) ∧
      add (.arr xs) ["-"] v = .ok (.arr (xs ++ [v]))) ∧
    (∀ (xs : List Json) (v : Json) (t : String) (i : Nat),
      parseTokenString t (.arr xs) = .ok (.idx (i : Int)) → i ≤ xs.length →
      add (.arr xs) [t] v = .ok (.arr (xs.take i ++ v :: xs.drop i))) ∧
    (∀ (xs : List Json) (v : Json) (t : String) (i : Nat),
      parseTokenString t (.arr xs) = .ok (.idx (i : Int)) → i > xs.length →
      add (.arr xs) [t] v =
        .error "pointer points to an index that is out-of-bounds") ∧
    applyPatch (.arr [.num 1, .num 2]) [addOp "/4" (.str "d")] =
      .error "add failed: pointer points to an index that is out-of-bounds" := by
  refine ⟨?_, ?_, ?_, rfl⟩
  · intro xs v
    refine ⟨by simp [parseTokenString], ?_⟩
    have h0 : ¬ ((xs.length : Int) < 0) := by omega
    simp [add, parseTokenString, reconstructInsert, spliceInsert, spliceStart,
      h0]
  · intro xs v t i hparse hle
    have hnotgt : ¬ ((i : Int) > (xs.length : Int)) := by omega
    have h0 : ¬ ((i : Int) < 0) := by omega
    simp [add, hparse, reconstructInsert, hnotgt, spliceInsert, spliceStart,
      h0, Nat.min_eq_left hle]
  · intro xs v t i hparse hgt
    have hgt' : (i : Int) > (xs.length : Int) := by omega
    simp [add, hparse, reconstructInsert, hgt']

/-- Witness for `c7_add_into_array`: inserting at index 1 of a length-1
array appends; index 2 is out of bounds. -/
theorem c7_add_into_array_witness :
    add (.arr [.num 0]) ["1"] (.str "x") = .ok (.arr [.num 0, .str "x"]) ∧
    add (.arr [.num 0]) ["2"] (.str "x") =
      .error "pointer points to an index that is out-of-bounds" :=
  ⟨c7_add_into_array.2.1 [.num 0] (.str "x") "1" 1 rfl (by decide),
   c7_add_into_array.2.2.1 [.num 0] (.str "x") "2" 2 rfl (by decide)⟩

/-- C3 (amended).  A non-dash token read against an array context is
accepted exactly when `parseInt(token, 10)` yields a number `n` and the
string-to-number coercion of the token is a number equal to `n` (the
loose `!=` comparison of the source) — so tokens with leading zeros, a
leading `+`, surrounding whitespace, or equal-valued fraction/exponent
spellings are accepted with value `n` (even a negative `n`), and only
numerically different or `NaN` tokens fail with the invalid-index
error. -/
theorem c3_array_index_loose (t : String) (xs : List Json) (n : Int)
    (hdash : t ≠ "-") :
    parseTokenString t (.arr xs) = .ok (.idx n) ↔
      ∃ q, jsParseInt t = some n ∧ jsToNumber t = some q ∧
        intEqJsNumber n q = true := by
  simp only [parseTokenString, if_neg hdash]
  cases hpi : jsParseInt t with
  | none => simp
  | some m =>
    cases htn : jsToNumber t with
    | none => simp
    | some q =>
      by_cases heq : intEqJsNumber m q = true
      · simp only [heq, if_true, Except.ok.injEq, Token.idx.injEq]
        constructor
        · rintro rfl
          exact ⟨q, rfl, rfl, heq⟩
        · rintro ⟨q', hq1, hq2, hq3⟩
          cases hq1
          rfl
      · simp only [heq, if_false]
        constructor
        · intro h
          cases h
        · rintro ⟨q', hq1, hq2, hq3⟩
          cases hq1
          cases hq2
          exact absurd hq3 heq

/-- Witness for `c3_array_index_loose`: the non-canonical token `"01"`
is accepted and resolves to index 1. -/
theorem c3_array_index_loose_witness :
    parseTokenString "01" (.arr []) = .ok (.idx 1) :=
  (c3_array_index_loose "01" [] 1 (by decide)).mpr ⟨⟨1, 0⟩, rfl, rfl, rfl⟩

/-- C5 (amended).  Add/remove round-trip: for every well-formed document
`D` and pointer `P` such that `P` does not resolve to an existing
location in `D`, *the add succeeds*, `P` resolves to an existing location
in the patched document (this excludes the `-` append token and tokens
the loose index check accepts as negative integers), and every container
`P` traverses above its final token is an object (adding through an
array duplicates the traversed element — a quirk of `add` using splice
insertion at every level), applying remove at `P` to the patched document
restores `D` exactly. -/
theorem c5_roundtrip_amended (D D' v : Json) (p : String) (ts : List String)
    (hwf : wfB D = true)
    (hp : parsePath p = .ok ts)
    (hmid : middleObjects D ts = true)
    (hnot : has D ts = .ok false)
    (hadd : applyPatch D [addOp p v] = .ok D')
    (hhas : has D' ts = .ok true) :
    applyPatch D' [removeOp p] = .ok D := by
  have hpne : p ≠ "" := by
    intro hpe
    subst hpe
    rw [show parsePath "" = Except.ok [] from rfl] at hp
    cases hp
    simp [has] at hnot
  have haddw : add D ts v = .ok D' := by
    simp only [applyPatch, applyOperation, addOp, wrapErr, if_neg hpne, hp]
      at hadd
    cases ha : add D ts v with
    | error e => rw [ha] at hadd; cases hadd
    | ok x => rw [ha] at hadd; cases hadd; rfl
  have hrem : remove D' ts = .ok D :=
    addRemoveAux ts D D' v hwf hmid hnot haddw hhas
  simp only [applyPatch, applyOperation, removeOp, wrapErr, if_neg hpne, hp,
    hrem]

/-- Witness for `c5_roundtrip_amended`: adding then removing `/b` on
`{"a": 1}` restores the original object. -/
theorem c5_roundtrip_amended_witness :
    applyPatch (.obj [("a", .num 1), ("b", .num 2)]) [removeOp "/b"] =
      .ok (.obj [("a", .num 1)]) :=
  c5_roundtrip_amended (.obj [("a", .num 1)])
    (.obj [("a", .num 1), ("b", .num 2)]) (.num 2) "/b" ["b"]
    rfl rfl rfl rfl rfl rfl

/-! ## Model validation

Concrete checks that the embedding reproduces the behaviors asserted by
the repository's test suite (`test.js`) and README. -/

example : applyPatch (.obj [("letters", .arr [.str "a", .str "b", .str "d"])])
    [addOp "/letters/2" (.str "c")] =
    .ok (.obj [("letters", .arr [.str "a", .str "b", .str "c", .str "d"])]) := rfl

example : applyPatch (.obj [("~", .str "a")]) [addOp "/~0" (.str "b")] =
    .ok (.obj [("~", .str "b")]) := rfl

example : applyPatch (.obj [("/", .str "a")]) [addOp "/~1" (.str "b")] =
    .ok (.obj [("/", .str "b")]) := rfl

example : applyPatch (.obj [("~/", .str "a")]) [addOp "/~0~1" (.str "b")] =
    .ok (.obj [("~/", .str "b")]) := rfl

example : applyPatch (.arr [.str "a", .str "c"]) [addOp "/1" (.str "b")] =
    .ok (.arr [.str "a", .str "b", .str "c"]) := rfl

example : applyPatch (.arr []) [addOp "/-" (.str "a")] = .ok (.arr [.str "a"]) := rfl

example : applyPatch (.obj [("a", .num 1)]) [addOp "" (.obj [("b", .num 2)])] =
    .ok (.obj [("b", .num 2)]) := rfl

example : applyPatch (.obj [("a", .num 1)]) [removeOp "/b"] =
    .error "remove failed: pointer does not lead anywhere" := rfl

example : applyPatch (.arr [.str "a", .str "b", .str "x", .str "c"]) [removeOp "/2"] =
    .ok (.arr [.str "a", .str "b", .str "c"]) := rfl

example : applyPatch (.obj [("a", .num 1)])
    [{ op := "replace", path := "/b", value := some (.num 2) }] =
    .error "replace failed: pointer points to a nonexistent location" := rfl

example : applyPatch (.obj [("a", .obj [("b", .obj [("c", .num 41)])])])
    [{ op := "replace", path := "/a/b/c", value := some (.num 42) }] =
    .ok (.obj [("a", .obj [("b", .obj [("c", .num 42)])])]) := rfl

example : applyPatch (.obj [("a", .obj [("b", .num 1)])]) [moveOp "/a" "/a/b"] =
    .error "move failed: from pointer cannot be a prefix of path pointer" := rfl

example : applyPatch (.obj [("a", .obj [("b", .obj [("c", .num 123)])])])
    [moveOp "/a/b/c" "/a/b/d"] =
    .ok (.obj [("a", .obj [("b", .obj [("d", .num 123)])])]) := rfl

example : applyPatch (.obj [("a", .num 1)]) [moveOp "/b" "/a"] =
    .error "move failed: pointer does not lead anywhere" := rfl

example : applyPatch (.obj [("overwritten", .num 1), ("overwriter", .num 2)])
    [{ op := "copy", path := "/final", fromPath := some "/overwritten" },
     { op := "copy", path := "/final", fromPath := some "/overwriter" }] =
    .ok (.obj [("overwritten", .num 1), ("overwriter", .num 2), ("final", .num 2)]) := rfl

example : applyPatch (.obj []) [{ op := "nonsense", path := "/a" }] =
    .error "illegal op: should be add/copy/move/remove/replace/test, was \"nonsense\"" := rfl

example : applyPatch (.obj [("a", .num 1)])
    [{ op := "test", path := "/a", value := some (.num 1) }, removeOp "/a"] =
    .ok (.obj []) := by
  simp [applyPatch, applyOperation, wrapErr, parsePath, splitOnSlash,
    firstCharIsSlash, get, parseTokenString, decodeObjectToken, replaceFirst,
    replaceFirstChars, jsGetElem, objLookup, compare, jsStrictEq, remove,
    objDelete, removeOp, describe, spliceDelete, spliceStart]

end MinimalJsonPatch
